import Mathlib

set_option maxHeartbeats 1000000

/-!
Verification of the ToskaMesh Go runtime SDK (`pkg/runtime`): a shallow
embedding of `options.go` (configuration resolver) and `mesh.go` (metadata
builder and lifecycle orchestrator), with theorems settling the spec's claims
about them.
-/

namespace ToskaMeshGo

/-- Association-list model of a Go `map[string]string`: lookup returns the
first (unique) binding; writes overwrite in place. -/
abbrev Metadata := List (String × String)

/-- Map read `m[k]` (with presence as `Option`). -/
def mget (m : Metadata) (k : String) : Option String :=
  match m with
  | [] => none
  | (k', v) :: rest => if k' = k then some v else mget rest k

/-- Map write `m[k] = v`: overwrite the existing binding, else append. -/
def mset (m : Metadata) (k v : String) : Metadata :=
  match m with
  | [] => [(k, v)]
  | (k', v') :: rest => if k' = k then (k, v) :: rest else (k', v') :: mset rest k v

theorem mget_mset_self (m : Metadata) (k v : String) :
    mget (mset m k v) k = some v := by
  induction m with
  | nil => simp [mget, mset]
  | cons hd rest ih =>
      obtain ⟨k', v'⟩ := hd
      by_cases h : k' = k
      · simp [mget, mset, h]
      · simp [mget, mset, h, ih]

theorem mget_mset_ne (m : Metadata) (k v : String) (k' : String) (h : k' ≠ k) :
    mget (mset m k v) k' = mget m k' := by
  have hk : ¬ k = k' := fun hh => h hh.symm
  induction m with
  | nil => simp [mget, mset, hk]
  | cons hd rest ih =>
      obtain ⟨k0, v0⟩ := hd
      by_cases h0 : k0 = k
      · subst h0
        simp [mget, mset, hk]
      · simp [mget, mset, h0, ih]

/-- `options.go`: `LoadBalancingStrategy` is a Go string type. -/
abbrev LoadBalancingStrategy := String

def RoundRobin : LoadBalancingStrategy := "RoundRobin"
def LeastConnections : LoadBalancingStrategy := "LeastConnections"
def Random : LoadBalancingStrategy := "Random"
def WeightedRoundRobin : LoadBalancingStrategy := "WeightedRoundRobin"
def IPHash : LoadBalancingStrategy := "IPHash"

/-- `options.go`: routing attributes advertised to the mesh gateway. -/
structure RoutingOptions where
  Scheme : String
  HealthCheckEndpoint : String
  Strategy : LoadBalancingStrategy
  Weight : Int
  deriving Repr, DecidableEq

/-- `options.go`: `ServiceOptions`. Durations are in nanoseconds
(Go `time.Duration`). -/
structure ServiceOptions where
  ServiceName : String
  ServiceID : String
  Address : String
  AdvertisedAddress : String
  Port : Int
  HealthEndpoint : String
  HealthInterval : Int
  HealthTimeout : Int
  UnhealthyThreshold : Int
  HeartbeatEnabled : Bool
  AutoRegister : Bool
  DiscoveryAddress : String
  Metadata : Metadata
  Routing : RoutingOptions
  deriving Repr, DecidableEq

/-- `options.go`: `DefaultOptions()`. `Routing.HealthCheckEndpoint` is left at
its zero value `""` (derived later by `New`), like the Go zero value. -/
def DefaultOptions : ServiceOptions :=
  { ServiceName := "mesh-service"
    ServiceID := ""
    Address := "0.0.0.0"
    AdvertisedAddress := ""
    Port := 8080
    HealthEndpoint := "/health"
    HealthInterval := 30 * 1000000000
    HealthTimeout := 5 * 1000000000
    UnhealthyThreshold := 3
    HeartbeatEnabled := true
    AutoRegister := true
    DiscoveryAddress := "localhost:8080"
    Metadata := []
    Routing :=
      { Scheme := "http"
        HealthCheckEndpoint := ""
        Strategy := RoundRobin
        Weight := 1 } }

/-- `options.go`: `Option` — a functional override mutating the in-progress
options value. -/
abbrev Opt := ServiceOptions → ServiceOptions

/-- `New`'s loop `for _, fn := range opts { fn(&o) }`: apply overrides in
order, later ones winning. -/
def applyOpts (o : ServiceOptions) (fns : List Opt) : ServiceOptions :=
  fns.foldl (fun o f => f o) o

def WithServiceName (name : String) : Opt :=
  fun o => { o with ServiceName := name }

def WithServiceID (id : String) : Opt :=
  fun o => { o with ServiceID := id }

def WithAddress (addr : String) : Opt :=
  fun o => { o with Address := addr }

def WithAdvertisedAddress (addr : String) : Opt :=
  fun o => { o with AdvertisedAddress := addr }

def WithPort (port : Int) : Opt :=
  fun o => { o with Port := port }

def WithHealthEndpoint (endpoint : String) : Opt :=
  fun o => { o with HealthEndpoint := endpoint }

def WithHealthInterval (d : Int) : Opt :=
  fun o => { o with HealthInterval := d }

def WithHeartbeat (enabled : Bool) : Opt :=
  fun o => { o with HeartbeatEnabled := enabled }

def WithAutoRegister (enabled : Bool) : Opt :=
  fun o => { o with AutoRegister := enabled }

def WithDiscoveryAddress (addr : String) : Opt :=
  fun o => { o with DiscoveryAddress := addr }

def WithMetadata (key value : String) : Opt :=
  fun o => { o with Metadata := mset o.Metadata key value }

def WithRoutingStrategy (s : LoadBalancingStrategy) : Opt :=
  fun o => { o with Routing := { o.Routing with Strategy := s } }

def WithRoutingWeight (w : Int) : Opt :=
  fun o => { o with Routing := { o.Routing with Weight := w } }

def WithRoutingScheme (scheme : String) : Opt :=
  fun o => { o with Routing := { o.Routing with Scheme := scheme } }

/-- The single error `New` can return (`"runtime: ServiceName is required"`),
the spec's `InvalidConfiguration`. -/
inductive NewError where
  | invalidConfiguration
  deriving Repr, DecidableEq

/-- `mesh.go` lines 49-80: `New`. Applies the overrides to the defaults, then
validates `ServiceName`, then derives `ServiceID` (from the name and the
current `time.Now().UnixNano()`, passed here as `nowUnixNano`),
`AdvertisedAddress` and `Routing.HealthCheckEndpoint` when unset. -/
def New (nowUnixNano : Int) (opts : List Opt) : Except NewError ServiceOptions :=
  let o := applyOpts DefaultOptions opts
  if o.ServiceName = "" then
    .error .invalidConfiguration
  else
    let o :=
      if o.ServiceID = "" then
        { o with ServiceID := o.ServiceName ++ "-" ++ toString nowUnixNano }
      else o
    let o :=
      if o.AdvertisedAddress = "" then { o with AdvertisedAddress := o.Address }
      else o
    let o :=
      if o.Routing.HealthCheckEndpoint = "" then
        { o with Routing := { o.Routing with HealthCheckEndpoint := o.HealthEndpoint } }
      else o
    .ok o

/-- `mesh.go` lines 310-322: `buildMetadata`. Copies the user map into a fresh
map, then writes the reserved routing keys, `weight` only when positive
(`strconv.Itoa` is `toString` on `Int`). -/
def buildMetadata (user : Metadata) (r : RoutingOptions) : Metadata :=
  let m := user
  let m := mset m "scheme" r.Scheme
  let m := mset m "health_check_endpoint" r.HealthCheckEndpoint
  let m := mset m "lb_strategy" r.Strategy
  if 0 < r.Weight then mset m "weight" (toString r.Weight) else m

/-- C3: For every user metadata map and routing attribute set, the built
metadata holds the reserved keys `scheme`, `health_check_endpoint` and
`lb_strategy` at the routing-derived values (overriding any same-named user
entries); the derived `weight` entry is present, overriding any user entry,
exactly when `weight > 0` (when `weight ≤ 0` nothing is added for `weight`, so
the lookup falls through to the user map); every non-reserved user entry is
copied through unchanged. -/
theorem buildMetadata_reserved_keys (user : Metadata) (r : RoutingOptions) :
    mget (buildMetadata user r) "scheme" = some r.Scheme ∧
    mget (buildMetadata user r) "health_check_endpoint" = some r.HealthCheckEndpoint ∧
    mget (buildMetadata user r) "lb_strategy" = some r.Strategy ∧
    (0 < r.Weight → mget (buildMetadata user r) "weight" = some (toString r.Weight)) ∧
    (r.Weight ≤ 0 → mget (buildMetadata user r) "weight" = mget user "weight") ∧
    (∀ k, k ≠ "scheme" → k ≠ "health_check_endpoint" → k ≠ "lb_strategy" →
      k ≠ "weight" → mget (buildMetadata user r) k = mget user k) := by
  unfold buildMetadata
  by_cases hw : 0 < r.Weight
  · simp only [hw, if_true]
    refine ⟨?_, ?_, ?_, fun _ => ?_, fun hle => absurd hw (not_lt.mpr hle), fun k h1 h2 h3 h4 => ?_⟩
    · rw [mget_mset_ne _ _ _ _ (by decide), mget_mset_ne _ _ _ _ (by decide),
        mget_mset_ne _ _ _ _ (by decide), mget_mset_self]
    · rw [mget_mset_ne _ _ _ _ (by decide), mget_mset_ne _ _ _ _ (by decide),
        mget_mset_self]
    · rw [mget_mset_ne _ _ _ _ (by decide), mget_mset_self]
    · rw [mget_mset_self]
    · rw [mget_mset_ne _ _ _ _ h4, mget_mset_ne _ _ _ _ h3,
        mget_mset_ne _ _ _ _ h2, mget_mset_ne _ _ _ _ h1]
  · simp only [hw, if_false]
    refine ⟨?_, ?_, ?_, fun hlt => hlt.elim, fun _ => ?_, fun k h1 h2 h3 _ => ?_⟩
    · rw [mget_mset_ne _ _ _ _ (by decide), mget_mset_ne _ _ _ _ (by decide),
        mget_mset_self]
    · rw [mget_mset_ne _ _ _ _ (by decide), mget_mset_self]
    · rw [mget_mset_self]
    · rw [mget_mset_ne _ _ _ _ (by decide), mget_mset_ne _ _ _ _ (by decide),
        mget_mset_ne _ _ _ _ (by decide)]
    · rw [mget_mset_ne _ _ _ _ h3, mget_mset_ne _ _ _ _ h2, mget_mset_ne _ _ _ _ h1]

/-- C3 witness: scenario B of the spec, evaluated concretely. -/
theorem buildMetadata_reserved_keys_witness :
    mget (buildMetadata [("env", "prod")]
      { Scheme := "https", HealthCheckEndpoint := "/health",
        Strategy := WeightedRoundRobin, Weight := 3 }) "weight" = some "3" ∧
    mget (buildMetadata [("env", "prod")]
      { Scheme := "https", HealthCheckEndpoint := "/health",
        Strategy := WeightedRoundRobin, Weight := 3 }) "env" = some "prod" := by
  refine ⟨(buildMetadata_reserved_keys [("env", "prod")] _).2.2.2.1 (by decide), ?_⟩
  exact (buildMetadata_reserved_keys [("env", "prod")] _).2.2.2.2.2 "env"
    (by decide) (by decide) (by decide) (by decide)

/-- C10: when `weight ≤ 0` and the user supplied a `"weight"` entry, the built
metadata keeps the user's value unchanged — the reserved-key override does not
apply to `weight` in that case. -/
theorem weight_user_entry_survives (user : Metadata) (r : RoutingOptions) (v : String)
    (hw : r.Weight ≤ 0) (hu : mget user "weight" = some v) :
    mget (buildMetadata user r) "weight" = some v := by
  have h := (buildMetadata_reserved_keys user r).2.2.2.2.1 hw
  rw [h, hu]

/-- C10 witness: a caller smuggles `weight=999` past the builder with
`Weight = 0`. -/
theorem weight_user_entry_survives_witness :
    mget (buildMetadata [("weight", "999")]
      { Scheme := "http", HealthCheckEndpoint := "/health",
        Strategy := RoundRobin, Weight := 0 }) "weight" = some "999" :=
  weight_user_entry_survives [("weight", "999")] _ "999" (by decide) (by decide)

/-- C4: `New` fails — necessarily with `InvalidConfiguration`, the only error
it can produce — if and only if the `ServiceName` left after applying all
overrides to the defaults is empty, regardless of every other field. -/
theorem new_fails_iff_serviceName_empty (now : Int) (opts : List Opt) :
    New now opts = .error .invalidConfiguration ↔
      (applyOpts DefaultOptions opts).ServiceName = "" := by
  unfold New
  by_cases h : (applyOpts DefaultOptions opts).ServiceName = ""
  · simp [h]
  · simp [h]

/-- C4 witness: an override emptying the name makes `New` fail; the default
configuration (no overrides) succeeds. -/
theorem new_fails_iff_serviceName_empty_witness :
    New 0 [WithServiceName ""] = .error .invalidConfiguration ∧
    ¬ New 0 [] = .error .invalidConfiguration :=
  ⟨(new_fails_iff_serviceName_empty 0 [WithServiceName ""]).mpr (by decide),
   fun h => by
    have := (new_fails_iff_serviceName_empty 0 []).mp h
    simp [applyOpts, DefaultOptions] at this⟩

/-- C5: whenever the overrides leave `AdvertisedAddress` unset (and the name
nonempty so `New` succeeds), the resolved advertised address equals the
post-override bind address — the derivation runs after all overrides, so a
late `WithAddress` override is reflected. -/
theorem advertised_defaults_to_bind (now : Int) (opts : List Opt)
    (hname : (applyOpts DefaultOptions opts).ServiceName ≠ "")
    (hadv : (applyOpts DefaultOptions opts).AdvertisedAddress = "") :
    ∃ r, New now opts = .ok r ∧
      r.AdvertisedAddress = (applyOpts DefaultOptions opts).Address := by
  unfold New
  rw [if_neg hname]
  by_cases hid : (applyOpts DefaultOptions opts).ServiceID = "" <;>
    simp only [hid, if_true, if_false, hadv] <;>
  · by_cases hhc :
      (applyOpts DefaultOptions opts).Routing.HealthCheckEndpoint = "" <;>
      simp [hhc]

/-- C5 witness: a late bind-address override is what the derived advertised
address reflects. -/
theorem advertised_defaults_to_bind_witness :
    ∃ r, New 7 [WithServiceName "svc", WithAddress "10.0.0.1"] = .ok r ∧
      r.AdvertisedAddress =
        (applyOpts DefaultOptions [WithServiceName "svc", WithAddress "10.0.0.1"]).Address :=
  advertised_defaults_to_bind 7 [WithServiceName "svc", WithAddress "10.0.0.1"]
    (by decide) (by decide)

/-!
## Lifecycle orchestration (`mesh.go` lines 116-299)

`start` runs three concurrent flows: the HTTP serving goroutine, the heartbeat
goroutine (`heartbeatLoop`), and the orchestrating control flow itself. We
model the concurrent phase (from the point both goroutines are spawned and
`start` blocks in its `select`) as a labelled transition system; a schedule
(`List Act`) picks which enabled transition fires next, covering every
interleaving, including Go's nondeterministic `select` when several cases are
ready and arbitrary goroutine scheduling delays.
-/

/-- `heartbeatLoop`'s position: blocked in its `select`, executing a
`sendHeartbeat` tick, or returned (at which point `heartbeatDone` is closed
and the deferred `ticker.Stop()` has run). -/
inductive HBState where
  | sel
  | tick
  | exited
  deriving Repr, DecidableEq

/-- The orchestrator's position inside `start` (lines 187-219): blocked in the
`select`; the two calls inside `deregister` (degraded report, then
`Deregister`); `server.Shutdown`; `<-heartbeatDone`; `grpcConn.Close`;
returned `nil`; or returned the serving error (line 191). -/
inductive MainState where
  | sel
  | degraded
  | dereg
  | srvShutdown
  | awaitHB
  | connClose
  | done
  | doneErr
  deriving Repr, DecidableEq

/-- Configuration flags fixed before the concurrent phase:
`deregActive` = `AutoRegister && discoveryClient != nil` (line 198),
`hbActive` = `HeartbeatEnabled && discoveryClient != nil` (line 166),
`hasConn` = `grpcConn != nil` (line 213). -/
structure RunCfg where
  deregActive : Bool
  hbActive : Bool
  hasConn : Bool
  deriving Repr, DecidableEq

/-- Shared state of the concurrent phase. `tickPending` models a tick sitting
in `ticker.C` (capacity one, later ticks dropped); `srvErr` models the
buffered `serverErr` channel; `ret` is `start`'s return once it returns
(`some none` = `nil`, `some (some e)` = serving error `e`). -/
structure MState where
  cancelled : Bool
  tickPending : Bool
  hb : HBState
  srvRunning : Bool
  srvErr : Option Nat
  main : MainState
  ret : Option (Option Nat)
  deriving Repr, DecidableEq

/-- Observable events of an execution, in order of occurrence. -/
inductive Label where
  | cancel
  | tickFire
  | hbBegin
  | hbEnd (ok : Bool)
  | hbExit
  | serveFail (code : Nat)
  | degradedReport
  | deregCall
  | srvShutdownCall
  | hbAwaited
  | connClosed
  deriving Repr, DecidableEq

/-- Scheduler choices: environment events (context cancellation, a ticker
fire, the serving goroutine failing) and one step of the heartbeat goroutine
or of the orchestrator. `hbExit`/`hbTick` are the two cases of the loop's
`select`; when both are ready Go picks either, so both are enabled. -/
inductive Act where
  | cancel
  | tickFire
  | serveFail (code : Nat)
  | hbExit
  | hbTick
  | hbEnd (ok : Bool)
  | mRecvCancel
  | mRecvErr
  | mStep
  deriving Repr, DecidableEq

/-- One transition of the system; `none` when the chosen action is not
enabled in `s`. Mirrors `mesh.go` lines 186-299 step by step. -/
def step (cfg : RunCfg) (s : MState) : Act → Option (MState × Option Label)
  | .cancel =>
      if s.cancelled = true then none
      else some ({ s with cancelled := true }, some .cancel)
  | .tickFire =>
      if s.hb = .exited ∨ s.tickPending = true then none
      else some ({ s with tickPending := true }, some .tickFire)
  | .serveFail code =>
      if s.srvRunning = true ∧ s.srvErr = none then
        some ({ s with srvRunning := false, srvErr := some code }, some (.serveFail code))
      else none
  | .hbExit =>
      if s.hb = .sel ∧ s.cancelled = true then
        some ({ s with hb := .exited }, some .hbExit)
      else none
  | .hbTick =>
      if s.hb = .sel ∧ s.tickPending = true then
        some ({ s with hb := .tick, tickPending := false }, some .hbBegin)
      else none
  | .hbEnd ok =>
      if s.hb = .tick then some ({ s with hb := .sel }, some (.hbEnd ok)) else none
  | .mRecvCancel =>
      if s.main = .sel ∧ s.cancelled = true then
        some ({ s with main := if cfg.deregActive then .degraded else .srvShutdown }, none)
      else none
  | .mRecvErr =>
      match s.srvErr with
      | some e =>
          if s.main = .sel then
            some ({ s with main := .doneErr, ret := some (some e) }, none)
          else none
      | none => none
  | .mStep =>
      match s.main with
      | .degraded => some ({ s with main := .dereg }, some .degradedReport)
      | .dereg => some ({ s with main := .srvShutdown }, some .deregCall)
      | .srvShutdown =>
          some ({ s with main := .awaitHB, srvRunning := false }, some .srvShutdownCall)
      | .awaitHB =>
          if s.hb = .exited then some ({ s with main := .connClose }, some .hbAwaited)
          else none
      | .connClose =>
          some ({ s with main := .done, ret := some none },
            if cfg.hasConn = true then some .connClosed else none)
      | _ => none

/-- Apply one scheduled action to a (state, trace) pair; a disabled action is
a no-op. -/
def stepA (cfg : RunCfg) (st : MState × List Label) (a : Act) : MState × List Label :=
  match step cfg st.1 a with
  | none => st
  | some (s, none) => (s, st.2)
  | some (s, some l) => (s, st.2 ++ [l])

/-- State at the start of the concurrent phase: if the heartbeat goroutine is
not spawned, `heartbeatDone` is closed immediately (line 172), modelled as the
loop already exited. -/
def initState (cfg : RunCfg) : MState :=
  { cancelled := false
    tickPending := false
    hb := if cfg.hbActive = true then .sel else .exited
    srvRunning := true
    srvErr := none
    main := .sel
    ret := none }

/-- Run a schedule from an arbitrary (state, trace) pair. -/
def runFrom (cfg : RunCfg) (st : MState × List Label) (acts : List Act) :
    MState × List Label :=
  acts.foldl (stepA cfg) st

/-- Run a schedule from the initial state. -/
def runPair (cfg : RunCfg) (acts : List Act) : MState × List Label :=
  runFrom cfg (initState cfg, []) acts

def runState (cfg : RunCfg) (acts : List Act) : MState :=
  (runPair cfg acts).1

def runTrace (cfg : RunCfg) (acts : List Act) : List Label :=
  (runPair cfg acts).2

/-- `beforeAll a b t` holds when every occurrence of `b` in `t` is strictly
preceded by an occurrence of `a` (equivalently: no `b` before the first `a`). -/
def beforeAll (a b : Label) : List Label → Bool
  | [] => true
  | x :: xs => if x = b then false else if x = a then true else beforeAll a b xs

/-- `noneAfter a b t` holds when no occurrence of `b` in `t` comes strictly
after an occurrence of `a`. -/
def noneAfter (a b : Label) : List Label → Bool
  | [] => true
  | x :: xs => if x = a then decide (b ∉ xs) else noneAfter a b xs

theorem beforeAll_append (a b x : Label) (t : List Label)
    (ht : beforeAll a b t = true) (hx : x = b → a ∈ t) :
    beforeAll a b (t ++ [x]) = true := by
  induction t with
  | nil =>
      by_cases hxb : x = b
      · exact absurd (hx hxb) (List.not_mem_nil a)
      · simp [beforeAll, hxb]
  | cons y ys ih =>
      simp only [List.cons_append, beforeAll] at ht ⊢
      by_cases hyb : y = b
      · rw [if_pos hyb] at ht
        exact absurd ht (by decide)
      · rw [if_neg hyb] at ht ⊢
        by_cases hya : y = a
        · rw [if_pos hya] at ht ⊢
        · rw [if_neg hya] at ht ⊢
          refine ih ht (fun hxb => ?_)
          rcases List.mem_cons.mp (hx hxb) with h | h
          · exact absurd h.symm hya
          · exact h

theorem noneAfter_append (a b x : Label) (t : List Label)
    (ht : noneAfter a b t = true) (hx : x = b → a ∉ t) :
    noneAfter a b (t ++ [x]) = true := by
  induction t with
  | nil =>
      simp only [List.nil_append, noneAfter]
      split
      · exact decide_eq_true (List.not_mem_nil b)
      · rfl
  | cons y ys ih =>
      simp only [List.cons_append, noneAfter] at ht ⊢
      by_cases hya : y = a
      · rw [if_pos hya] at ht ⊢
        have hbys : b ∉ ys := of_decide_eq_true ht
        have hxb : x ≠ b := by
          intro hh
          exact hx hh (List.mem_cons.mpr (Or.inl hya.symm))
        refine decide_eq_true (fun hmem => ?_)
        rcases List.mem_append.mp hmem with h | h
        · exact hbys h
        · exact hxb (List.mem_singleton.mp h).symm
      · rw [if_neg hya] at ht ⊢
        refine ih ht (fun hxb hmem => hx hxb (List.mem_cons_of_mem y hmem))

/-- Progress measure on the orchestrator's shutdown path (`doneErr` is the
early return at line 191, which never enters the shutdown sequence). -/
def rank : MainState → Nat
  | .sel => 0
  | .doneErr => 0
  | .degraded => 1
  | .dereg => 2
  | .srvShutdown => 3
  | .awaitHB => 4
  | .connClose => 5
  | .done => 6

/-- Inductive invariant of the concurrent phase, tying the trace's content to
the goroutine states and carrying the ordering properties of the claims. -/
structure Inv (cfg : RunCfg) (s : MState) (t : List Label) : Prop where
  cancelMem : Label.cancel ∈ t ↔ s.cancelled = true
  degradedMem : cfg.deregActive = true → (Label.degradedReport ∈ t ↔ 2 ≤ rank s.main)
  deregMem : cfg.deregActive = true → (Label.deregCall ∈ t ↔ 3 ≤ rank s.main)
  connMem : Label.connClosed ∈ t ↔ (cfg.hasConn = true ∧ s.main = .done)
  hbExitMem : cfg.hbActive = true → (Label.hbExit ∈ t ↔ s.hb = .exited)
  hbExitCancelled : cfg.hbActive = true → s.hb = .exited → s.cancelled = true
  mainCancelled : 1 ≤ rank s.main → s.cancelled = true
  lateHb : 5 ≤ rank s.main → s.hb = .exited
  ord1 : cfg.deregActive = true → beforeAll .degradedReport .deregCall t = true
  ord2 : cfg.deregActive = true → cfg.hasConn = true →
    beforeAll .deregCall .connClosed t = true
  ord3 : cfg.deregActive = true → beforeAll .cancel .deregCall t = true
  ord4 : cfg.hbActive = true → cfg.hasConn = true →
    beforeAll .hbExit .connClosed t = true
  ord5 : cfg.hbActive = true → noneAfter .hbExit .hbBegin t = true
  ord6 : cfg.hbActive = true → beforeAll .cancel .hbExit t = true

theorem Inv_init (cfg : RunCfg) : Inv cfg (initState cfg) [] := by
  refine ⟨?_, ?_, ?_, ?_, ?_, ?_, ?_, ?_, ?_, ?_, ?_, ?_, ?_, ?_⟩ <;>
    simp [initState, rank, beforeAll, noneAfter]

theorem Inv_stepA (cfg : RunCfg) (s : MState) (t : List Label)
    (inv : Inv cfg s t) (a : Act) :
    Inv cfg (stepA cfg (s, t) a).1 (stepA cfg (s, t) a).2 := by
  obtain ⟨cancelMem, degradedMem, deregMem, connMem, hbExitMem, hbExitCancelled,
    mainCancelled, lateHb, ord1, ord2, ord3, ord4, ord5, ord6⟩ := inv
  cases a with
  | cancel =>
      by_cases hc : s.cancelled = true
      · simp only [stepA, step, hc, if_true]
        exact ⟨cancelMem, degradedMem, deregMem, connMem, hbExitMem, hbExitCancelled,
          mainCancelled, lateHb, ord1, ord2, ord3, ord4, ord5, ord6⟩
      · simp only [stepA, step, if_neg hc]
        refine ⟨?_, ?_, ?_, ?_, ?_, ?_, ?_, ?_, ?_, ?_, ?_, ?_, ?_, ?_⟩
        · simp
        · intro hd; simpa using degradedMem hd
        · intro hd; simpa using deregMem hd
        · simpa using connMem
        · intro hh; simpa using hbExitMem hh
        · intro _ _; rfl
        · intro _; rfl
        · exact lateHb
        · intro hd
          exact beforeAll_append _ _ _ _ (ord1 hd) (fun hh => Label.noConfusion hh)
        · intro hd hcn
          exact beforeAll_append _ _ _ _ (ord2 hd hcn) (fun hh => Label.noConfusion hh)
        · intro hd
          exact beforeAll_append _ _ _ _ (ord3 hd) (fun hh => Label.noConfusion hh)
        · intro hh hcn
          exact beforeAll_append _ _ _ _ (ord4 hh hcn) (fun hh => Label.noConfusion hh)
        · intro hh
          exact noneAfter_append _ _ _ _ (ord5 hh) (fun hh => Label.noConfusion hh)
        · intro hh
          exact beforeAll_append _ _ _ _ (ord6 hh) (fun hh => Label.noConfusion hh)
  | tickFire =>
      by_cases hg : s.hb = .exited ∨ s.tickPending = true
      · simp only [stepA, step, if_pos hg]
        exact ⟨cancelMem, degradedMem, deregMem, connMem, hbExitMem, hbExitCancelled,
          mainCancelled, lateHb, ord1, ord2, ord3, ord4, ord5, ord6⟩
      · simp only [stepA, step, if_neg hg]
        refine ⟨?_, ?_, ?_, ?_, ?_, ?_, ?_, ?_, ?_, ?_, ?_, ?_, ?_, ?_⟩
        · simpa using cancelMem
        · intro hd; simpa using degradedMem hd
        · intro hd; simpa using deregMem hd
        · simpa using connMem
        · intro hh; simpa using hbExitMem hh
        · intro hh hb; exact hbExitCancelled hh hb
        · exact mainCancelled
        · exact lateHb
        · intro hd
          exact beforeAll_append _ _ _ _ (ord1 hd) (fun hh => Label.noConfusion hh)
        · intro hd hcn
          exact beforeAll_append _ _ _ _ (ord2 hd hcn) (fun hh => Label.noConfusion hh)
        · intro hd
          exact beforeAll_append _ _ _ _ (ord3 hd) (fun hh => Label.noConfusion hh)
        · intro hh hcn
          exact beforeAll_append _ _ _ _ (ord4 hh hcn) (fun hh => Label.noConfusion hh)
        · intro hh
          exact noneAfter_append _ _ _ _ (ord5 hh) (fun hh => Label.noConfusion hh)
        · intro hh
          exact beforeAll_append _ _ _ _ (ord6 hh) (fun hh => Label.noConfusion hh)
  | serveFail code =>
      by_cases hg : s.srvRunning = true ∧ s.srvErr = none
      · simp only [stepA, step, if_pos hg]
        refine ⟨?_, ?_, ?_, ?_, ?_, ?_, ?_, ?_, ?_, ?_, ?_, ?_, ?_, ?_⟩
        · simpa using cancelMem
        · intro hd; simpa using degradedMem hd
        · intro hd; simpa using deregMem hd
        · simpa using connMem
        · intro hh; simpa using hbExitMem hh
        · intro hh hb; exact hbExitCancelled hh hb
        · exact mainCancelled
        · exact lateHb
        · intro hd
          exact beforeAll_append _ _ _ _ (ord1 hd) (fun hh => Label.noConfusion hh)
        · intro hd hcn
          exact beforeAll_append _ _ _ _ (ord2 hd hcn) (fun hh => Label.noConfusion hh)
        · intro hd
          exact beforeAll_append _ _ _ _ (ord3 hd) (fun hh => Label.noConfusion hh)
        · intro hh hcn
          exact beforeAll_append _ _ _ _ (ord4 hh hcn) (fun hh => Label.noConfusion hh)
        · intro hh
          exact noneAfter_append _ _ _ _ (ord5 hh) (fun hh => Label.noConfusion hh)
        · intro hh
          exact beforeAll_append _ _ _ _ (ord6 hh) (fun hh => Label.noConfusion hh)
      · simp only [stepA, step, if_neg hg]
        exact ⟨cancelMem, degradedMem, deregMem, connMem, hbExitMem, hbExitCancelled,
          mainCancelled, lateHb, ord1, ord2, ord3, ord4, ord5, ord6⟩
  | hbExit =>
      by_cases hg : s.hb = .sel ∧ s.cancelled = true
      · simp only [stepA, step, if_pos hg]
        refine ⟨?_, ?_, ?_, ?_, ?_, ?_, ?_, ?_, ?_, ?_, ?_, ?_, ?_, ?_⟩
        · simpa using cancelMem
        · intro hd; simpa using degradedMem hd
        · intro hd; simpa using deregMem hd
        · simpa using connMem
        · intro _; simp
        · intro _ _; exact hg.2
        · exact mainCancelled
        · intro _; rfl
        · intro hd
          exact beforeAll_append _ _ _ _ (ord1 hd) (fun hh => Label.noConfusion hh)
        · intro hd hcn
          exact beforeAll_append _ _ _ _ (ord2 hd hcn) (fun hh => Label.noConfusion hh)
        · intro hd
          exact beforeAll_append _ _ _ _ (ord3 hd) (fun hh => Label.noConfusion hh)
        · intro hh hcn
          exact beforeAll_append _ _ _ _ (ord4 hh hcn) (fun hh => Label.noConfusion hh)
        · intro hh
          exact noneAfter_append _ _ _ _ (ord5 hh) (fun hh => Label.noConfusion hh)
        · intro hh
          refine beforeAll_append _ _ _ _ (ord6 hh) (fun _ => ?_)
          exact cancelMem.mpr hg.2
      · simp only [stepA, step, if_neg hg]
        exact ⟨cancelMem, degradedMem, deregMem, connMem, hbExitMem, hbExitCancelled,
          mainCancelled, lateHb, ord1, ord2, ord3, ord4, ord5, ord6⟩
  | hbTick =>
      by_cases hg : s.hb = .sel ∧ s.tickPending = true
      · simp only [stepA, step, if_pos hg]
        refine ⟨?_, ?_, ?_, ?_, ?_, ?_, ?_, ?_, ?_, ?_, ?_, ?_, ?_, ?_⟩
        · simpa using cancelMem
        · intro hd; simpa using degradedMem hd
        · intro hd; simpa using deregMem hd
        · simpa using connMem
        · intro hh
          simp only []
          have : Label.hbExit ∉ t := by
            intro hmem
            have := (hbExitMem hh).mp hmem
            rw [hg.1] at this
            exact HBState.noConfusion this
          simp [this]
        · intro _ hb; exact absurd hb (by simp)
        · exact mainCancelled
        · intro h5
          have := lateHb h5
          rw [hg.1] at this
          exact HBState.noConfusion this
        · intro hd
          exact beforeAll_append _ _ _ _ (ord1 hd) (fun hh => Label.noConfusion hh)
        · intro hd hcn
          exact beforeAll_append _ _ _ _ (ord2 hd hcn) (fun hh => Label.noConfusion hh)
        · intro hd
          exact beforeAll_append _ _ _ _ (ord3 hd) (fun hh => Label.noConfusion hh)
        · intro hh hcn
          exact beforeAll_append _ _ _ _ (ord4 hh hcn) (fun hh => Label.noConfusion hh)
        · intro hh
          refine noneAfter_append _ _ _ _ (ord5 hh) (fun _ hmem => ?_)
          have := (hbExitMem hh).mp hmem
          rw [hg.1] at this
          exact HBState.noConfusion this
        · intro hh
          exact beforeAll_append _ _ _ _ (ord6 hh) (fun hh => Label.noConfusion hh)
      · simp only [stepA, step, if_neg hg]
        exact ⟨cancelMem, degradedMem, deregMem, connMem, hbExitMem, hbExitCancelled,
          mainCancelled, lateHb, ord1, ord2, ord3, ord4, ord5, ord6⟩
  | hbEnd ok =>
      by_cases hg : s.hb = .tick
      · simp only [stepA, step, if_pos hg]
        refine ⟨?_, ?_, ?_, ?_, ?_, ?_, ?_, ?_, ?_, ?_, ?_, ?_, ?_, ?_⟩
        · simpa using cancelMem
        · intro hd; simpa using degradedMem hd
        · intro hd; simpa using deregMem hd
        · simpa using connMem
        · intro hh
          have : Label.hbExit ∉ t := by
            intro hmem
            have := (hbExitMem hh).mp hmem
            rw [hg] at this
            exact HBState.noConfusion this
          simp [this]
        · intro _ hb; exact absurd hb (by simp)
        · exact mainCancelled
        · intro h5
          have := lateHb h5
          rw [hg] at this
          exact HBState.noConfusion this
        · intro hd
          exact beforeAll_append _ _ _ _ (ord1 hd) (fun hh => Label.noConfusion hh)
        · intro hd hcn
          exact beforeAll_append _ _ _ _ (ord2 hd hcn) (fun hh => Label.noConfusion hh)
        · intro hd
          exact beforeAll_append _ _ _ _ (ord3 hd) (fun hh => Label.noConfusion hh)
        · intro hh hcn
          exact beforeAll_append _ _ _ _ (ord4 hh hcn) (fun hh => Label.noConfusion hh)
        · intro hh
          exact noneAfter_append _ _ _ _ (ord5 hh) (fun hh => Label.noConfusion hh)
        · intro hh
          exact beforeAll_append _ _ _ _ (ord6 hh) (fun hh => Label.noConfusion hh)
      · simp only [stepA, step, if_neg hg]
        exact ⟨cancelMem, degradedMem, deregMem, connMem, hbExitMem, hbExitCancelled,
          mainCancelled, lateHb, ord1, ord2, ord3, ord4, ord5, ord6⟩
  | mRecvCancel =>
      by_cases hg : s.main = .sel ∧ s.cancelled = true
      · simp only [stepA, step, if_pos hg]
        refine ⟨?_, ?_, ?_, ?_, ?_, ?_, ?_, ?_, ?_, ?_, ?_, ?_, ?_, ?_⟩
        · simpa using cancelMem
        · intro hd
          have := degradedMem hd
          rw [hg.1] at this
          simp only [rank] at this
          simp [hd, rank, this]
        · intro hd
          have := deregMem hd
          rw [hg.1] at this
          simp only [rank] at this
          simp [hd, rank, this]
        · have := connMem
          rw [hg.1] at this
          simp only [] at this ⊢
          by_cases hdA : cfg.deregActive = true <;> simp [hdA] <;>
            simpa using this
        · intro hh; simpa using hbExitMem hh
        · intro hh hb; exact hbExitCancelled hh hb
        · intro _; exact hg.2
        · intro h5
          by_cases hdA : cfg.deregActive = true <;> simp [hdA, rank] at h5
        · intro hd; exact ord1 hd
        · intro hd hcn; exact ord2 hd hcn
        · intro hd; exact ord3 hd
        · intro hh hcn; exact ord4 hh hcn
        · intro hh; exact ord5 hh
        · intro hh; exact ord6 hh
      · simp only [stepA, step, if_neg hg]
        exact ⟨cancelMem, degradedMem, deregMem, connMem, hbExitMem, hbExitCancelled,
          mainCancelled, lateHb, ord1, ord2, ord3, ord4, ord5, ord6⟩
  | mRecvErr =>
      cases hse : s.srvErr with
      | none =>
          simp only [stepA, step, hse]
          exact ⟨cancelMem, degradedMem, deregMem, connMem, hbExitMem, hbExitCancelled,
            mainCancelled, lateHb, ord1, ord2, ord3, ord4, ord5, ord6⟩
      | some e =>
          by_cases hm : s.main = .sel
          · simp only [stepA, step, hse, if_pos hm]
            refine ⟨?_, ?_, ?_, ?_, ?_, ?_, ?_, ?_, ?_, ?_, ?_, ?_, ?_, ?_⟩
            · simpa using cancelMem
            · intro hd
              have := degradedMem hd
              rw [hm] at this
              simpa [rank] using this
            · intro hd
              have := deregMem hd
              rw [hm] at this
              simpa [rank] using this
            · have := connMem
              rw [hm] at this
              simpa using this
            · intro hh; simpa using hbExitMem hh
            · intro hh hb; exact hbExitCancelled hh hb
            · intro h1; simp [rank] at h1
            · intro h5; simp [rank] at h5
            · intro hd; exact ord1 hd
            · intro hd hcn; exact ord2 hd hcn
            · intro hd; exact ord3 hd
            · intro hh hcn; exact ord4 hh hcn
            · intro hh; exact ord5 hh
            · intro hh; exact ord6 hh
          · simp only [stepA, step, hse, if_neg hm]
            exact ⟨cancelMem, degradedMem, deregMem, connMem, hbExitMem, hbExitCancelled,
              mainCancelled, lateHb, ord1, ord2, ord3, ord4, ord5, ord6⟩
  | mStep =>
      cases hm : s.main with
      | sel =>
          simp only [stepA, step, hm]
          exact ⟨cancelMem, degradedMem, deregMem, connMem, hbExitMem, hbExitCancelled,
            mainCancelled, lateHb, ord1, ord2, ord3, ord4, ord5, ord6⟩
      | done =>
          simp only [stepA, step, hm]
          exact ⟨cancelMem, degradedMem, deregMem, connMem, hbExitMem, hbExitCancelled,
            mainCancelled, lateHb, ord1, ord2, ord3, ord4, ord5, ord6⟩
      | doneErr =>
          simp only [stepA, step, hm]
          exact ⟨cancelMem, degradedMem, deregMem, connMem, hbExitMem, hbExitCancelled,
            mainCancelled, lateHb, ord1, ord2, ord3, ord4, ord5, ord6⟩
      | degraded =>
          simp only [stepA, step, hm]
          refine ⟨?_, ?_, ?_, ?_, ?_, ?_, ?_, ?_, ?_, ?_, ?_, ?_, ?_, ?_⟩
          · simpa using cancelMem
          · intro _; simp [rank]
          · intro hd
            have := deregMem hd
            rw [hm] at this
            simp only [rank] at this
            simpa [rank] using this
          · have := connMem
            rw [hm] at this
            simpa using this
          · intro hh; simpa using hbExitMem hh
          · intro hh hb; exact hbExitCancelled hh hb
          · intro _
            exact mainCancelled (by rw [hm]; decide)
          · intro h5; simp [rank] at h5
          · intro hd
            exact beforeAll_append _ _ _ _ (ord1 hd) (fun hh => Label.noConfusion hh)
          · intro hd hcn
            exact beforeAll_append _ _ _ _ (ord2 hd hcn) (fun hh => Label.noConfusion hh)
          · intro hd
            exact beforeAll_append _ _ _ _ (ord3 hd) (fun hh => Label.noConfusion hh)
          · intro hh hcn
            exact beforeAll_append _ _ _ _ (ord4 hh hcn) (fun hh => Label.noConfusion hh)
          · intro hh
            exact noneAfter_append _ _ _ _ (ord5 hh) (fun hh => Label.noConfusion hh)
          · intro hh
            exact beforeAll_append _ _ _ _ (ord6 hh) (fun hh => Label.noConfusion hh)
      | dereg =>
          simp only [stepA, step, hm]
          refine ⟨?_, ?_, ?_, ?_, ?_, ?_, ?_, ?_, ?_, ?_, ?_, ?_, ?_, ?_⟩
          · simpa using cancelMem
          · intro hd
            have := (degradedMem hd).mpr (by rw [hm]; decide)
            simp [this, rank]
          · intro _; simp [rank]
          · have := connMem
            rw [hm] at this
            simpa using this
          · intro hh; simpa using hbExitMem hh
          · intro hh hb; exact hbExitCancelled hh hb
          · intro _
            exact mainCancelled (by rw [hm]; decide)
          · intro h5; simp [rank] at h5
          · intro hd
            refine beforeAll_append _ _ _ _ (ord1 hd) (fun _ => ?_)
            exact (degradedMem hd).mpr (by rw [hm]; decide)
          · intro hd hcn
            exact beforeAll_append _ _ _ _ (ord2 hd hcn) (fun hh => Label.noConfusion hh)
          · intro hd
            refine beforeAll_append _ _ _ _ (ord3 hd) (fun _ => ?_)
            exact cancelMem.mpr (mainCancelled (by rw [hm]; decide))
          · intro hh hcn
            exact beforeAll_append _ _ _ _ (ord4 hh hcn) (fun hh => Label.noConfusion hh)
          · intro hh
            exact noneAfter_append _ _ _ _ (ord5 hh) (fun hh => Label.noConfusion hh)
          · intro hh
            exact beforeAll_append _ _ _ _ (ord6 hh) (fun hh => Label.noConfusion hh)
      | srvShutdown =>
          simp only [stepA, step, hm]
          refine ⟨?_, ?_, ?_, ?_, ?_, ?_, ?_, ?_, ?_, ?_, ?_, ?_, ?_, ?_⟩
          · simpa using cancelMem
          · intro hd
            have := (degradedMem hd).mpr (by rw [hm]; decide)
            simp [this, rank]
          · intro hd
            have := (deregMem hd).mpr (by rw [hm]; decide)
            simp [this, rank]
          · have := connMem
            rw [hm] at this
            simpa using this
          · intro hh; simpa using hbExitMem hh
          · intro hh hb; exact hbExitCancelled hh hb
          · intro _
            exact mainCancelled (by rw [hm]; decide)
          · intro h5; simp [rank] at h5
          · intro hd
            exact beforeAll_append _ _ _ _ (ord1 hd) (fun hh => Label.noConfusion hh)
          · intro hd hcn
            exact beforeAll_append _ _ _ _ (ord2 hd hcn) (fun hh => Label.noConfusion hh)
          · intro hd
            exact beforeAll_append _ _ _ _ (ord3 hd) (fun hh => Label.noConfusion hh)
          · intro hh hcn
            exact beforeAll_append _ _ _ _ (ord4 hh hcn) (fun hh => Label.noConfusion hh)
          · intro hh
            exact noneAfter_append _ _ _ _ (ord5 hh) (fun hh => Label.noConfusion hh)
          · intro hh
            exact beforeAll_append _ _ _ _ (ord6 hh) (fun hh => Label.noConfusion hh)
      | awaitHB =>
          by_cases hg : s.hb = .exited
          · simp only [stepA, step, hm, if_pos hg]
            refine ⟨?_, ?_, ?_, ?_, ?_, ?_, ?_, ?_, ?_, ?_, ?_, ?_, ?_, ?_⟩
            · simpa using cancelMem
            · intro hd
              have := (degradedMem hd).mpr (by rw [hm]; decide)
              simp [this, rank]
            · intro hd
              have := (deregMem hd).mpr (by rw [hm]; decide)
              simp [this, rank]
            · have := connMem
              rw [hm] at this
              simpa using this
            · intro hh; simpa using hbExitMem hh
            · intro hh hb; exact hbExitCancelled hh hb
            · intro _
              exact mainCancelled (by rw [hm]; decide)
            · intro _; exact hg
            · intro hd
              exact beforeAll_append _ _ _ _ (ord1 hd) (fun hh => Label.noConfusion hh)
            · intro hd hcn
              exact beforeAll_append _ _ _ _ (ord2 hd hcn) (fun hh => Label.noConfusion hh)
            · intro hd
              exact beforeAll_append _ _ _ _ (ord3 hd) (fun hh => Label.noConfusion hh)
            · intro hh hcn
              exact beforeAll_append _ _ _ _ (ord4 hh hcn) (fun hh => Label.noConfusion hh)
            · intro hh
              exact noneAfter_append _ _ _ _ (ord5 hh) (fun hh => Label.noConfusion hh)
            · intro hh
              exact beforeAll_append _ _ _ _ (ord6 hh) (fun hh => Label.noConfusion hh)
          · simp only [stepA, step, hm, if_neg hg]
            exact ⟨cancelMem, degradedMem, deregMem, connMem, hbExitMem, hbExitCancelled,
              mainCancelled, lateHb, ord1, ord2, ord3, ord4, ord5, ord6⟩
      | connClose =>
          by_cases hcn : cfg.hasConn = true
          · simp only [stepA, step, hm, if_pos hcn]
            refine ⟨?_, ?_, ?_, ?_, ?_, ?_, ?_, ?_, ?_, ?_, ?_, ?_, ?_, ?_⟩
            · simpa using cancelMem
            · intro hd
              have := (degradedMem hd).mpr (by rw [hm]; decide)
              simp [this, rank]
            · intro hd
              have := (deregMem hd).mpr (by rw [hm]; decide)
              simp [this, rank]
            · simp [hcn]
            · intro hh; simpa using hbExitMem hh
            · intro hh hb; exact hbExitCancelled hh hb
            · intro _
              exact mainCancelled (by rw [hm]; decide)
            · intro _
              exact lateHb (by rw [hm]; decide)
            · intro hd
              exact beforeAll_append _ _ _ _ (ord1 hd) (fun hh => Label.noConfusion hh)
            · intro hd hcn2
              refine beforeAll_append _ _ _ _ (ord2 hd hcn2) (fun _ => ?_)
              exact (deregMem hd).mpr (by rw [hm]; decide)
            · intro hd
              exact beforeAll_append _ _ _ _ (ord3 hd) (fun hh => Label.noConfusion hh)
            · intro hh hcn2
              refine beforeAll_append _ _ _ _ (ord4 hh hcn2) (fun _ => ?_)
              exact (hbExitMem hh).mpr (lateHb (by rw [hm]; decide))
            · intro hh
              exact noneAfter_append _ _ _ _ (ord5 hh) (fun hh => Label.noConfusion hh)
            · intro hh
              exact beforeAll_append _ _ _ _ (ord6 hh) (fun hh => Label.noConfusion hh)
          · simp only [stepA, step, hm, if_neg hcn]
            refine ⟨?_, ?_, ?_, ?_, ?_, ?_, ?_, ?_, ?_, ?_, ?_, ?_, ?_, ?_⟩
            · simpa using cancelMem
            · intro hd
              have := (degradedMem hd).mpr (by rw [hm]; decide)
              simp [this, rank]
            · intro hd
              have := (deregMem hd).mpr (by rw [hm]; decide)
              simp [this, rank]
            · have := connMem
              rw [hm] at this
              simp only [] at this ⊢
              constructor
              · intro hmem
                exact absurd ((this.mp hmem).1) (by simpa using hcn)
              · intro hcontra
                exact absurd hcontra.1 (by simpa using hcn)
            · intro hh; simpa using hbExitMem hh
            · intro hh hb; exact hbExitCancelled hh hb
            · intro _
              exact mainCancelled (by rw [hm]; decide)
            · intro _
              exact lateHb (by rw [hm]; decide)
            · intro hd; exact ord1 hd
            · intro hd hcn2; exact absurd hcn2 hcn
            · intro hd; exact ord3 hd
            · intro hh hcn2; exact absurd hcn2 hcn
            · intro hh; exact ord5 hh
            · intro hh; exact ord6 hh

theorem Inv_runFrom (cfg : RunCfg) (acts : List Act) (st : MState × List Label)
    (inv : Inv cfg st.1 st.2) :
    Inv cfg (runFrom cfg st acts).1 (runFrom cfg st acts).2 := by
  induction acts generalizing st with
  | nil => exact inv
  | cons a rest ih => exact ih (stepA cfg st a) (Inv_stepA cfg st.1 st.2 inv a)

theorem Inv_run (cfg : RunCfg) (acts : List Act) :
    Inv cfg (runState cfg acts) (runTrace cfg acts) :=
  Inv_runFrom cfg acts (initState cfg, []) (Inv_init cfg)

/-!
## The sequential prefix of `start` (lines 116-184)

Bind, ephemeral-port resolution, discovery connection and registration happen
before the concurrent phase; they are deterministic given the environment's
responses, modelled by `StartEnv`.
-/

/-- Errors of `start`'s fatal paths and of the registry calls. -/
inductive GoErr where
  | bindError
  | connectError
  | regTransport
  | regRejected (msg : String)
  | serveErr (code : Nat)
  deriving Repr, DecidableEq

/-- Outcome of the remote `Register` call: transport error, explicit rejection
(`Success == false`), or acceptance. -/
inductive RegisterOutcome where
  | accepted
  | transportErr
  | rejected (msg : String)
  deriving Repr, DecidableEq

/-- Environment responses consumed by `start`'s sequential prefix:
`net.Listen` success, the OS-assigned port when binding port 0 (a real TCP
ephemeral port, hence nonzero — the listener collaborator's contract),
`grpc.NewClient` success, and the `Register` outcome. -/
structure StartEnv where
  listenOk : Bool
  ephemeralPort : Int
  connectOk : Bool
  registerOutcome : RegisterOutcome
  deriving Repr, DecidableEq

/-- `mesh.go` lines 224-236: the `RegisterServiceRequest` built by `register`
from the options and the effective port (the `int32` narrowing and the
float `Seconds()` rounding of the health-check counts are not modelled; no
claim depends on them). -/
structure RegisterRequest where
  ServiceName : String
  ServiceId : String
  Address : String
  Port : Int
  Metadata : Metadata
  HcEndpoint : String
  HcIntervalSeconds : Int
  HcTimeoutSeconds : Int
  HcUnhealthyThreshold : Int
  deriving Repr, DecidableEq

def registerReq (o : ServiceOptions) (actualPort : Int) : RegisterRequest :=
  { ServiceName := o.ServiceName
    ServiceId := o.ServiceID
    Address := o.AdvertisedAddress
    Port := actualPort
    Metadata := buildMetadata o.Metadata o.Routing
    HcEndpoint := o.HealthEndpoint
    HcIntervalSeconds := o.HealthInterval / 1000000000
    HcTimeoutSeconds := o.HealthTimeout / 1000000000
    HcUnhealthyThreshold := o.UnhealthyThreshold }

/-- `mesh.go` lines 238-244: `register`'s error — transport failure or
explicit rejection — which `start` only logs (line 159). -/
def registerErr (outcome : RegisterOutcome) : Option GoErr :=
  match outcome with
  | .accepted => none
  | .transportErr => some .regTransport
  | .rejected m => some (.regRejected m)

/-- What the sequential prefix of `start` leaves behind on success. -/
structure Setup where
  actualPort : Int
  hasClient : Bool
  regAttempt : Option RegisterRequest
  regLoggedErr : Option GoErr
  deriving Repr, DecidableEq

/-- `mesh.go` lines 116-184: bind (fatal on failure, line 124), resolve the
effective port from the bound listener (lines 131-133), connect to discovery
when auto-register or heartbeats are enabled (fatal on failure, line 151),
then register when auto-register is enabled — a failure is logged and start
continues (lines 157-162). -/
def startSetup (o : ServiceOptions) (env : StartEnv) : Except GoErr Setup :=
  if env.listenOk = false then .error .bindError
  else
    let actualPort : Int := if o.Port = 0 then env.ephemeralPort else o.Port
    if o.AutoRegister || o.HeartbeatEnabled then
      if env.connectOk = false then .error .connectError
      else if o.AutoRegister then
        .ok { actualPort := actualPort, hasClient := true
              regAttempt := some (registerReq o actualPort)
              regLoggedErr := registerErr env.registerOutcome }
      else
        .ok { actualPort := actualPort, hasClient := true
              regAttempt := none, regLoggedErr := none }
    else
      .ok { actualPort := actualPort, hasClient := false
            regAttempt := none, regLoggedErr := none }

/-- The concurrent-phase flags induced by the prefix (lines 157, 166, 213). -/
def cfgOfSetup (o : ServiceOptions) (su : Setup) : RunCfg :=
  { deregActive := o.AutoRegister && su.hasClient
    hbActive := o.HeartbeatEnabled && su.hasClient
    hasConn := su.hasClient }

/-- Lift the concurrent phase's return cell into `start`'s typed result. -/
def retToReturn : Option (Option Nat) → Option (Option GoErr)
  | none => none
  | some none => some none
  | some (some c) => some (some (.serveErr c))

/-- `start`'s return value for a given environment and schedule: `none` while
still running, `some none` for the `nil` return (line 218), `some (some e)`
for a fatal error (bind, connect, or unexpected serving error at line 191). -/
def startReturn (o : ServiceOptions) (env : StartEnv) (acts : List Act) :
    Option (Option GoErr) :=
  match startSetup o env with
  | .error e => some (some e)
  | .ok su => retToReturn (runState (cfgOfSetup o su) acts).ret

/-- Recognizes a registration error in `start`'s return position. -/
def isRegErr : Option (Option GoErr) → Bool
  | some (some .regTransport) => true
  | some (some (.regRejected _)) => true
  | _ => false

theorem isRegErr_retToReturn (r : Option (Option Nat)) :
    isRegErr (retToReturn r) = false := by
  rcases r with _ | e
  · rfl
  · rcases e with _ | c <;> rfl

/-- A complete shutdown schedule with heartbeat ticks racing the shutdown
sequence: cancellation while a tick is in flight, a failed tick, a tick that
begins after the deregister call, loop exit, and full teardown. -/
def schedFull : List Act :=
  [.tickFire, .hbTick, .cancel, .mRecvCancel, .hbEnd false, .mStep, .tickFire,
   .mStep, .hbTick, .hbEnd true, .mStep, .hbExit, .mStep, .mStep]

/-- C6: in every execution with auto-register enabled (and hence a registry
connection), over all interleavings of concurrent heartbeat ticks: the
degraded report never follows the deregister call, the deregister call never
follows the connection release, and a completed shutdown attempted all
three in that order. -/
theorem shutdown_order (cfg : RunCfg) (acts : List Act)
    (hd : cfg.deregActive = true) (hc : cfg.hasConn = true) :
    beforeAll .degradedReport .deregCall (runTrace cfg acts) = true ∧
    beforeAll .deregCall .connClosed (runTrace cfg acts) = true ∧
    ((runState cfg acts).main = .done →
      Label.degradedReport ∈ runTrace cfg acts ∧
      Label.deregCall ∈ runTrace cfg acts ∧
      Label.connClosed ∈ runTrace cfg acts) := by
  have inv := Inv_run cfg acts
  refine ⟨inv.ord1 hd, inv.ord2 hd hc, fun hdone => ?_⟩
  exact ⟨(inv.degradedMem hd).mpr (by rw [hdone]; decide),
    (inv.deregMem hd).mpr (by rw [hdone]; decide),
    inv.connMem.mpr ⟨hc, hdone⟩⟩

/-- C6 witness: a completing schedule with ticks racing the shutdown. -/
theorem shutdown_order_witness :
    beforeAll .degradedReport .deregCall (runTrace ⟨true, true, true⟩ schedFull) = true ∧
    beforeAll .deregCall .connClosed (runTrace ⟨true, true, true⟩ schedFull) = true ∧
    ((runState ⟨true, true, true⟩ schedFull).main = .done →
      Label.degradedReport ∈ runTrace ⟨true, true, true⟩ schedFull ∧
      Label.deregCall ∈ runTrace ⟨true, true, true⟩ schedFull ∧
      Label.connClosed ∈ runTrace ⟨true, true, true⟩ schedFull) :=
  shutdown_order ⟨true, true, true⟩ schedFull rfl rfl

/-- C1 counterexample: an execution (schedule `schedFull`) in which a
heartbeat `reportHealth` call begins after the deregister call has returned —
the loop's `select` may pick a pending tick over the already-fired
cancellation, so the claimed "no reportHealth begins after deregister
returns" is false on the code. -/
theorem hb_tick_after_dereg_counterexample :
    noneAfter .deregCall .hbBegin (runTrace ⟨true, true, true⟩ schedFull) = false := by
  decide

/-- C1 (amended): when shutdown is triggered by cancellation, the
cancellation signal (which also stops the heartbeat loop) always precedes the
deregister call; the heartbeat loop's exit is awaited before the registry
connection is released; and no heartbeat tick begins after the loop has
exited — but a tick may still begin after deregister returns. -/
theorem cancellation_hb_teardown_order (cfg : RunCfg) (acts : List Act)
    (hhb : cfg.hbActive = true) (hd : cfg.deregActive = true)
    (hc : cfg.hasConn = true) :
    beforeAll .cancel .deregCall (runTrace cfg acts) = true ∧
    beforeAll .hbExit .connClosed (runTrace cfg acts) = true ∧
    noneAfter .hbExit .hbBegin (runTrace cfg acts) = true := by
  have inv := Inv_run cfg acts
  exact ⟨inv.ord3 hd, inv.ord4 hhb hc, inv.ord5 hhb⟩

/-- C1 (amended) witness. -/
theorem cancellation_hb_teardown_order_witness :
    beforeAll .cancel .deregCall (runTrace ⟨true, true, true⟩ schedFull) = true ∧
    beforeAll .hbExit .connClosed (runTrace ⟨true, true, true⟩ schedFull) = true ∧
    noneAfter .hbExit .hbBegin (runTrace ⟨true, true, true⟩ schedFull) = true :=
  cancellation_hb_teardown_order ⟨true, true, true⟩ schedFull rfl rfl rfl

/-- C8: the heartbeat loop leaves its select only on the cancellation signal:
if it has exited, cancellation occurred (and preceded the exit); and a failed
`reportHealth` tick (`ok = false`) never terminates the loop — the step after
any tick, failed or not, returns to the select, so the loop keeps ticking
until cancellation. -/
theorem heartbeat_exit_only_on_cancellation (cfg : RunCfg) (acts : List Act)
    (hhb : cfg.hbActive = true) :
    ((runState cfg acts).hb = .exited → Label.cancel ∈ runTrace cfg acts) ∧
    beforeAll .cancel .hbExit (runTrace cfg acts) = true ∧
    (∀ s : MState, s.hb = .tick → ∀ ok : Bool,
      step cfg s (.hbEnd ok) = some ({ s with hb := .sel }, some (.hbEnd ok))) := by
  have inv := Inv_run cfg acts
  refine ⟨fun hex => inv.cancelMem.mpr (inv.hbExitCancelled hhb hex),
    inv.ord6 hhb, fun s hs ok => ?_⟩
  simp [step, hs]

/-- C8 witness: `schedFull` exits only after cancellation; a concrete failed
tick leaves the loop back at its select. -/
theorem heartbeat_exit_only_on_cancellation_witness :
    Label.cancel ∈ runTrace ⟨true, true, true⟩ schedFull ∧
    step ⟨true, true, true⟩
      { cancelled := true, tickPending := false, hb := .tick, srvRunning := true,
        srvErr := none, main := .sel, ret := none } (.hbEnd false) =
      some ({ cancelled := true, tickPending := false, hb := .sel, srvRunning := true,
              srvErr := none, main := .sel, ret := none }, some (.hbEnd false)) :=
  ⟨(heartbeat_exit_only_on_cancellation ⟨true, true, true⟩ schedFull rfl).1 (by decide),
   (heartbeat_exit_only_on_cancellation ⟨true, true, true⟩ schedFull rfl).2.2
     { cancelled := true, tickPending := false, hb := .tick, srvRunning := true,
       srvErr := none, main := .sel, ret := none } rfl false⟩

/-- C2: the code at the failing input. When the serving loop fails with an
unexpected error (code 7) before cancellation, `start` returns that error
immediately (line 191): the trace holds no degraded report, no deregister, no
graceful stop and no connection release, and the heartbeat loop is still in
its select — the ordered shutdown sequence is skipped entirely, contradicting
the claim that every step is still attempted before `start` returns. -/
theorem serving_error_skips_shutdown :
    (runState ⟨true, true, true⟩ [.serveFail 7, .mRecvErr]).ret = some (some 7) ∧
    runTrace ⟨true, true, true⟩ [.serveFail 7, .mRecvErr] = [.serveFail 7] ∧
    (runState ⟨true, true, true⟩ [.serveFail 7, .mRecvErr]).hb = .sel := by
  decide

/-- C7: a failed registration — transport error or explicit rejection — is
logged (`regLoggedErr`) and `start` still proceeds to the Serving state with
the serving loop running; no schedule makes `start` return a registration
error. -/
theorem registration_failure_nonfatal (o : ServiceOptions) (env : StartEnv)
    (acts : List Act) (hl : env.listenOk = true) (hcn : env.connectOk = true)
    (ha : o.AutoRegister = true)
    (hf : (registerErr env.registerOutcome).isSome = true) :
    (∃ su : Setup, startSetup o env = .ok su ∧ su.regAttempt.isSome = true ∧
      su.regLoggedErr.isSome = true ∧
      (initState (cfgOfSetup o su)).srvRunning = true) ∧
    isRegErr (startReturn o env acts) = false := by
  have hsu : startSetup o env =
      .ok { actualPort := if o.Port = 0 then env.ephemeralPort else o.Port
            hasClient := true
            regAttempt := some (registerReq o
              (if o.Port = 0 then env.ephemeralPort else o.Port))
            regLoggedErr := registerErr env.registerOutcome } := by
    unfold startSetup
    rw [hl, ha]
    simp [hcn]
  refine ⟨⟨_, hsu, rfl, hf, rfl⟩, ?_⟩
  unfold startReturn
  rw [hsu]
  exact isRegErr_retToReturn _

/-- C7 witness: default options (auto-register on), register fails by
transport error, the empty schedule. -/
theorem registration_failure_nonfatal_witness :
    (∃ su : Setup,
      startSetup DefaultOptions ⟨true, 4242, true, .transportErr⟩ = .ok su ∧
      su.regAttempt.isSome = true ∧ su.regLoggedErr.isSome = true ∧
      (initState (cfgOfSetup DefaultOptions su)).srvRunning = true) ∧
    isRegErr (startReturn DefaultOptions ⟨true, 4242, true, .transportErr⟩ []) = false :=
  registration_failure_nonfatal DefaultOptions ⟨true, 4242, true, .transportErr⟩ []
    rfl rfl rfl rfl

/-- C9: with configured port 0 and a successful bind, the effective port is
the (nonzero) OS-resolved port of the bound listener, and exactly that port is
the one in the register call's request. -/
theorem ephemeral_port_resolved (o : ServiceOptions) (env : StartEnv)
    (hp : o.Port = 0) (hl : env.listenOk = true) (hnz : env.ephemeralPort ≠ 0)
    (ha : o.AutoRegister = true) (hcn : env.connectOk = true) :
    ∃ su : Setup, startSetup o env = .ok su ∧
      su.actualPort = env.ephemeralPort ∧ su.actualPort ≠ 0 ∧
      su.regAttempt = some (registerReq o env.ephemeralPort) ∧
      (registerReq o env.ephemeralPort).Port = env.ephemeralPort := by
  have hsu : startSetup o env =
      .ok { actualPort := env.ephemeralPort
            hasClient := true
            regAttempt := some (registerReq o env.ephemeralPort)
            regLoggedErr := registerErr env.registerOutcome } := by
    unfold startSetup
    rw [hl, ha]
    simp [hcn, hp]
  exact ⟨_, hsu, rfl, hnz, rfl, rfl⟩

/-- C9 witness. -/
theorem ephemeral_port_resolved_witness :
    ∃ su : Setup,
      startSetup (applyOpts DefaultOptions [WithPort 0])
        ⟨true, 54321, true, .accepted⟩ = .ok su ∧
      su.actualPort = (54321 : Int) ∧ su.actualPort ≠ 0 ∧
      su.regAttempt = some (registerReq (applyOpts DefaultOptions [WithPort 0]) 54321) ∧
      (registerReq (applyOpts DefaultOptions [WithPort 0]) 54321).Port = (54321 : Int) :=
  ephemeral_port_resolved (applyOpts DefaultOptions [WithPort 0])
    ⟨true, 54321, true, .accepted⟩ rfl rfl (by decide) rfl rfl

end ToskaMeshGo
